import Mathlib

/-!
Verification development for the `dms_check` Oracle compatibility checker
(`db_check/ora_check/__main__.py`).

Strings are modelled as `List Char` (Python `str`), restricted to their
ASCII behaviour for the character classifiers `isalpha`/`isdigit`.
Database rows are modelled as lists of already-stringified cell values,
matching the renderer's use of `str` on each cell.  The database cursor is
modelled as a pure function from the executed SQL text to either a row
list or a driver error (`Except`), which captures both `cur.execute` +
`cur.fetchall` and the exception path.  Python's left-to-right,
non-overlapping textual scans (`str.replace`, `str.split`) are embedded as
fuel-indexed structural recursions; the fuel is always instantiated with
the scanned string's length, which each scan step strictly decreases.
-/

set_option maxRecDepth 8000

/-- Error raised by the database driver (message text). -/
abbrev DbErr := List Char

/-- One database row: the stringified column values, in column order. -/
abbrev DbRow := List (List Char)

/-- One check definition from the YAML configuration: `name`, `query`, and
the optional `description` / `warning_message` keys. -/
structure CheckDef where
  name : List Char
  query : List Char
  description : Option (List Char)
  warning_message : Option (List Char)
deriving DecidableEq, Repr

/-- One entry of the report built by `run_checks`. -/
structure CheckResult where
  name : List Char
  description : List Char
  warning : List Char
  rows : List DbRow
deriving DecidableEq, Repr

/-- The placeholder token `\x7bowner_exclude_list\x7d` substituted into queries. -/
def tokenP : List Char := "\x7bowner_exclude_list\x7d".toList

/-- The reserved password scheme marker `gcp-secret:`. -/
def sepP : List Char := "gcp-secret:".toList

/-- Python `", ".join([f"\x27\x7bowner\x7d\x27" for owner in owner_exclude_list])`:
each owner single-quoted, the quoted owners joined by `", "`. -/
def joinOwners (owners : List (List Char)) : List Char :=
  List.intercalate ", ".toList
    (owners.map (fun o => "\x27".toList ++ o ++ "\x27".toList))

/-- Python `s.replace(pat, rep)` for a non-empty `pat`: scan left to right;
at an occurrence of `pat` emit `rep` and resume after the occurrence
(non-overlapping).  `fuel` bounds the number of scan steps; each step
consumes at least one character, so `fuel = s.length` is always enough. -/
def scanRep (pat rep : List Char) : Nat → List Char → List Char
  | 0, s => s
  | _ + 1, [] => []
  | n + 1, c :: cs =>
    if pat.isPrefixOf (c :: cs) then
      rep ++ scanRep pat rep n (List.drop (pat.length - 1) cs)
    else
      c :: scanRep pat rep n cs

/-- Scan deciding whether `pat` occurs anywhere in the string (as a
contiguous substring), by the same left-to-right walk as `scanRep`. -/
def hasTok (pat : List Char) : Nat → List Char → Bool
  | 0, _ => false
  | _ + 1, [] => false
  | n + 1, c :: cs => pat.isPrefixOf (c :: cs) || hasTok pat n cs

/-- Count of the non-overlapping occurrences of `pat`, scanning left to
right exactly as Python `s.count(pat)` does. -/
def countTok (pat : List Char) : Nat → List Char → Nat
  | 0, _ => 0
  | _ + 1, [] => 0
  | n + 1, c :: cs =>
    if pat.isPrefixOf (c :: cs) then
      1 + countTok pat n (List.drop (pat.length - 1) cs)
    else
      countTok pat n cs

/-- Count of the non-overlapping occurrences of `pat` in `s`. -/
def countOccur (pat s : List Char) : Nat :=
  countTok pat s.length s

/-- Python `s.split(pat)` for a non-empty `pat`: the list of segments
between the non-overlapping occurrences of `pat`, scanned left to right. -/
def pySplit (pat : List Char) : Nat → List Char → List (List Char)
  | 0, s => [s]
  | _ + 1, [] => [[]]
  | n + 1, c :: cs =>
    if pat.isPrefixOf (c :: cs) then
      [] :: pySplit pat n (List.drop (pat.length - 1) cs)
    else
      match pySplit pat n cs with
      | [] => [[c]]
      | seg :: rest => (c :: seg) :: rest

/-- Longest initial segment of the string in which `pat` never starts: the
text up to (excluding) the first occurrence of `pat`, or the whole string
when there is none.  Used to characterise the second field of `pySplit`. -/
def scanTake (pat : List Char) : Nat → List Char → List Char
  | 0, _ => []
  | _ + 1, [] => []
  | n + 1, c :: cs =>
    if pat.isPrefixOf (c :: cs) then [] else c :: scanTake pat n cs

/-- Line 41 of `__main__.py`:
`check['query'].replace("\x7bowner_exclude_list\x7d", ", ".join([f"\x27\x7bowner\x7d\x27" for owner in owner_exclude_list]))`. -/
def format_query (owners : List (List Char)) (q : List Char) : List Char :=
  scanRep tokenP (joinOwners owners) q.length q

/-- True when `pat` occurs in `s` as a contiguous substring. -/
def containsTok (pat s : List Char) : Bool :=
  hasTok pat s.length s

/-- Lines 37-54 of `__main__.py` (`run_checks`): for each check in order,
render the query, execute it, fetch all rows, and append a `CheckResult`
exactly when the row list is non-empty; a driver error propagates,
aborting the run and discarding results of the already completed checks. -/
def run_checks (db : List Char → Except DbErr (List DbRow))
    (checks : List CheckDef) (owners : List (List Char)) :
    Except DbErr (List CheckResult) :=
  match checks with
  | [] => .ok []
  | check :: rest =>
    match db (format_query owners check.query) with
    | .error e => .error e
    | .ok rows =>
      match run_checks db rest owners with
      | .error e => .error e
      | .ok tailRes =>
        .ok (if rows.isEmpty then tailRes
             else { name := check.name,
                    description := check.description.getD [],
                    warning := check.warning_message.getD [],
                    rows := rows } :: tailRes)

/-- Lines 23-28 of `__main__.py` (`resolve_password`): a non-empty
password starting with `gcp-secret:` is resolved through the secret store
(modelled as the pure lookup `store`) keyed by
`password_arg.split("gcp-secret:")[1]`; any other argument (including
`None` and the empty string) is returned unchanged. -/
def resolve_password (store : List Char → List Char) :
    Option (List Char) → Option (List Char)
  | none => none
  | some s =>
    if s ≠ [] ∧ sepP.isPrefixOf s then
      some (store ((pySplit sepP s.length s).getD 1 []))
    else
      some s

/-- Lines 247-256 of `__main__.py`: the host token of the report filename
(non-TNS branch).  A host made only of digits and dots becomes `ip_` plus
the host with every dot replaced by an underscore; any other host is
stripped to its alphabetic characters (ASCII model of Python
`isdigit`/`isalpha`). -/
def host_token (db_host : List Char) : List Char :=
  if db_host.all (fun c => c.isDigit || c == '.') then
    "ip_".toList ++ db_host.map (fun c => if c == '.' then '_' else c)
  else
    db_host.filter (fun c => c.isAlpha)

/-- Lines 259-260 of `__main__.py`: the HTML report filename
`f"dms_comp_\x7bdb_host_alpha\x7d_\x7btimestamp\x7d.html"`; the timestamp is a
parameter (`datetime.now().strftime("%Y%m%d_%H%M%S")` in the source). -/
def report_name (hostTok ts : List Char) : List Char :=
  "dms_comp_".toList ++ hostTok ++ "_".toList ++ ts ++ ".html".toList
/-- Lines 70-74 of `__main__.py`: the part of `html_header` before the
CSS-file styles (DOCTYPE, html, head, title). -/
def htmlHeaderA : List Char := "\n    <!DOCTYPE html>\n    <html>\n    <head>\n    <title>DMS Compatibility Report</title>".toList

/-- Chunk 1 of 5 of the hardcoded `<style>` block of `html_header`
(lines 83-188 of `__main__.py`); the five chunks concatenate to the exact
literal. -/
def hdrB1 : List Char := "<style>\n    body \x7b\n        font-family: \x27Arial\x27, sans-serif;\n        background-color: #f4f4f4;\n        color: #333;\n        line-height: 1.6;\n        margin: 0;\n        padding: 20px;\n      \x7d\n      \n      h2 \x7b\n        color: #4285f4;\n        margin-bottom: 1em;\n      \x7d\n      \n      h3 \x7b\n        color: #4285f4;\n        margin-top: 2em;\n        margin-bottom: 1em;\n      \x7d\n      \n      /* Menu Styling */\n        ul \x7b\n            list-style-type: none;\n            padding: 0;\n        ".toList

/-- Chunk 2 of 5 of the hardcoded `<style>` block of `html_header`
(lines 83-188 of `__main__.py`); the five chunks concatenate to the exact
literal. -/
def hdrB2 : List Char := "    margin: 0;\n            overflow: hidden; /* Hide overflowing menu items */\n        \x7d\n\n        li \x7b\n            display: inline-block; /* Horizontal menu items */\n            margin: 0;  /* Remove default margin */\n        \x7d\n\n        li a \x7b\n            color: white; /* White text */\n            display: block; /* Make the entire list item clickable */\n            padding: 14px 16px; /* Padding around the link text */\n            text-decoration: none; /* Remove underlines */\n   ".toList

/-- Chunk 3 of 5 of the hardcoded `<style>` block of `html_header`
(lines 83-188 of `__main__.py`); the five chunks concatenate to the exact
literal. -/
def hdrB3 : List Char := "         transition: background-color 0.3s ease; /* Smooth background transition */\n        \x7d\n\n        li a:hover \x7b\n            background-color: #307bf5; /* Darker background on hover */\n        \x7d\n      \n      table \x7b\n        border-collapse: collapse;\n        width: 100%;\n        margin-bottom: 2em;\n        background-color: #fff;\n        box-shadow: 0 2px 5px rgba(0, 0, 0, 0.1);\n      \x7d\n      \n      th, td \x7b\n        border: 1px solid #ddd;\n        padding: 8px;\n        text-alig".toList

/-- Chunk 4 of 5 of the hardcoded `<style>` block of `html_header`
(lines 83-188 of `__main__.py`); the five chunks concatenate to the exact
literal. -/
def hdrB4 : List Char := "n: left;\n      \x7d\n      \n      th \x7b\n        background-color: #f0f0f0;\n        font-weight: bold;\n      \x7d\n      \n      tr:nth-child(even) \x7b\n        background-color: #f9f9f9;\n      \x7d\n      \n      tr:hover \x7b\n        background-color: #e0e0e0;\n      \x7d\n      \n      .missing \x7b\n        color: #c0392b;\n        font-weight: bold;\n      \x7d\n      \n      .present \x7b\n        color: #2ecc71;\n        font-weight: bold;\n      \x7d\n      .back-to-top \x7b\n        position: fixed;\n        bottom: 20px;\n   ".toList

/-- Chunk 5 of 5 of the hardcoded `<style>` block of `html_header`
(lines 83-188 of `__main__.py`); the five chunks concatenate to the exact
literal. -/
def hdrB5 : List Char := "     right: 20px;\n        display: none; /* Hidden by default */\n        background-color: #007bff; /* Blue background */\n        color: white;\n        padding: 10px;\n        border-radius: 50%;\n        cursor: pointer;\n    \x7d\n    .back-to-top:hover \x7b\n        background-color: #4285f4;\n    \x7d\n    .back-to-top i \x7b /* Style the arrow icon */\n        font-size: 1.2em;\n        line-height: 1;\n    \x7d\n    </style>\n    </head>\n    <body>\n    <h1>DMS Compatibility Report</h1>\n    <ul>\n    ".toList

/-- Lines 83-188 of `__main__.py`: the hardcoded `<style>` block appended
after the CSS-file styles, up to and including the opening `<ul>`; spelled
as the concatenation of five chunks so that concrete scans stay within the
kernel's evaluation depth. -/
def htmlHeaderB : List Char := hdrB1 ++ (hdrB2 ++ (hdrB3 ++ (hdrB4 ++ hdrB5)))

/-- Lines 77-81 of `__main__.py`: each CSS file's content is wrapped in a
`<style>` element and appended to the header. -/
def wrapStyle (css : List Char) : List Char :=
  "<style>\n".toList ++ css ++ "\n</style>\n".toList

/-- Lines 193-202 of `__main__.py`: the HTML fragments appended for one
report entry: an `<h2>` with the check name, a `<p>` with the description,
an optional warning paragraph (only when the warning text is non-empty),
and a table with a `Findings` header row plus one `<tr><td>` row per
finding (the row's cells joined by `", "`). -/
def resultBlock (r : CheckResult) : List (List Char) :=
  ("<h2>".toList ++ r.name ++ "</h2>".toList) ::
  ("<p>".toList ++ r.description ++ "</p>".toList) ::
  ((if r.warning.isEmpty then []
    else ["<p style=\x27color:orange;\x27><strong>Warning:</strong> ".toList
            ++ r.warning ++ "</p>".toList]) ++
   ("<table border=\x271\x27 style=\x27border-collapse: collapse; width: 100%;\x27>".toList ::
    "<tr><th>Findings</th></tr>".toList ::
    (r.rows.map (fun row =>
      "<tr><td>".toList ++ List.intercalate ", ".toList row ++ "</td></tr>".toList)) ++
    ["</table>".toList]))

/-- Lines 67-206 of `__main__.py` (`generate_html_report`): the report
document, `"\n".join` of the header (with the CSS file contents, modelled
as the input `cssFiles`, wrapped into it), a generation-time paragraph
(the clock reading is the input `now`), the per-result fragments, and the
closing tags. -/
def generate_html_report (cssFiles : List (List Char)) (now : List Char)
    (results : List CheckResult) : List Char :=
  List.intercalate "\n".toList
    (((htmlHeaderA ++ (cssFiles.map wrapStyle).flatten ++ htmlHeaderB) ::
      ("<p>Generated on: ".toList ++ now ++ "</p>".toList) ::
      results.flatMap resultBlock) ++
     ["</body>".toList, "</html>".toList])

/-- Decidable equality for `Except`, so concrete runs can be checked by
`decide`. -/
instance {ε α : Type} [DecidableEq ε] [DecidableEq α] : DecidableEq (Except ε α) := fun x y =>
  match x, y with
  | .ok a, .ok b => decidable_of_iff (a = b) (by simp)
  | .error e, .error f => decidable_of_iff (e = f) (by simp)
  | .ok _, .error _ => isFalse (by simp)
  | .error _, .ok _ => isFalse (by simp)

/-- Observable outcome of one `validate_database` call: the check results
(or the propagated driver error) together with whether `cur.close()` and
`conn.close()` were executed before control left the function. -/
structure RunState where
  outcome : Except DbErr (List CheckResult)
  curClosed : Bool
  connClosed : Bool
deriving DecidableEq, Repr

/-- Lines 208-272 of `__main__.py` (`validate_database`), after the
connection has been opened: `run_checks` is called, then (on the
straight-line path) the report is rendered and `cur.close()` /
`conn.close()` run as the last two statements.  An exception raised inside
`run_checks` propagates out of the function body, which contains no
`try`/`finally`, so on that path neither close call is reached. -/
def validate_database (db : List Char → Except DbErr (List DbRow))
    (checks : List CheckDef) (owners : List (List Char)) : RunState :=
  match run_checks db checks owners with
  | .error e => { outcome := .error e, curClosed := false, connClosed := false }
  | .ok rs => { outcome := .ok rs, curClosed := true, connClosed := true }

/-- A pattern has no non-trivial border: no proper non-empty suffix of the
pattern is also one of its prefixes.  This rules out occurrences that
straddle the boundary of a planted occurrence. -/
def borderFree (pat : List Char) : Prop :=
  ∀ k, k < pat.length → 0 < k → pat.drop k ≠ pat.take (pat.length - k)

/-! Concrete fixtures used to instantiate the theorems below. -/

/-- Cursor that answers every query with one single-cell row. -/
def dbOkv : List Char → Except DbErr (List DbRow) := fun _ => .ok [["v".toList]]

/-- Check `a` with query `Q` and no optional metadata keys. -/
def checkQ : CheckDef :=
  { name := "a".toList, query := "Q".toList, description := none, warning_message := none }

/-- Check with a `description` key but no `warning_message` key. -/
def checkDescOnly : CheckDef :=
  { name := "d".toList, query := "Q".toList,
    description := some "Has description".toList, warning_message := none }

/-- Check with a `warning_message` key but no `description` key. -/
def checkWarnOnly : CheckDef :=
  { name := "w".toList, query := "Q".toList,
    description := none, warning_message := some "Beware".toList }

/-- Report entry produced for `checkQ` under `dbOkv`. -/
def resQ : CheckResult :=
  { name := "a".toList, description := [], warning := [], rows := [["v".toList]] }

/-- Check `c1` with query `Q1`. -/
def checkQ1 : CheckDef :=
  { name := "c1".toList, query := "Q1".toList, description := none, warning_message := none }

/-- Check `c2` with query `Q2`. -/
def checkQ2 : CheckDef :=
  { name := "c2".toList, query := "Q2".toList, description := none, warning_message := none }

/-- Cursor that raises a driver error on query `Q2` and answers one row
otherwise. -/
def dbBoom : List Char → Except DbErr (List DbRow) := fun q =>
  if q = "Q2".toList then .error "ORA-00942".toList else .ok [["v".toList]]

/-- Cursor that answers zero rows on query `Q1` and one row otherwise. -/
def dbSkip1 : List Char → Except DbErr (List DbRow) := fun q =>
  if q = "Q1".toList then .ok [] else .ok [["v".toList]]

/-- Report entry produced for `checkQ2` under `dbSkip1`. -/
def resQ2 : CheckResult :=
  { name := "c2".toList, description := [], warning := [], rows := [["v".toList]] }

/-- Check `orphaned_triggers` of the end-to-end scenario. -/
def checkOT : CheckDef :=
  { name := "orphaned_triggers".toList, query := "QT".toList,
    description := none, warning_message := none }

/-- Check `dangling_links` of the end-to-end scenario. -/
def checkDL : CheckDef :=
  { name := "dangling_links".toList, query := "QL".toList,
    description := none, warning_message := none }

/-- Cursor of the end-to-end scenario: two rows for `orphaned_triggers`,
zero rows for `dangling_links`. -/
def db9 : List Char → Except DbErr (List DbRow) := fun q =>
  if q = "QT".toList
  then .ok [["TRG1".toList, "T1".toList], ["TRG2".toList, "T2".toList]]
  else .ok []

/-- The single report entry of the end-to-end scenario. -/
def res9 : CheckResult :=
  { name := "orphaned_triggers".toList, description := [], warning := [],
    rows := [["TRG1".toList, "T1".toList], ["TRG2".toList, "T2".toList]] }

/-- Fixed clock reading used for the end-to-end rendering. -/
def ts9 : List Char := "2026-01-01 09:30:00".toList

/-- The rendered HTML document of the end-to-end scenario (no CSS
files). -/
def html9 : List Char := generate_html_report [] ts9 [res9]


/-- The `<h2>` heading line rendered for the scenario's report entry. -/
def h2Tok : List Char :=
  "<h2>".toList ++ "orphaned_triggers".toList ++ "</h2>".toList

/-- Text between the header and the heading in the rendered document:
newline, the generation-time paragraph, newline. -/
def preT : List Char :=
  "\n".toList ++ ("<p>Generated on: ".toList ++ (ts9 ++ ("</p>".toList ++ "\n".toList)))

/-- Everything of the rendered document before the `<h2>` heading. -/
def pre1 : List Char :=
  htmlHeaderA ++ (hdrB1 ++ (hdrB2 ++ (hdrB3 ++ (hdrB4 ++ (hdrB5 ++ preT)))))

/-- The `<table ...>` opening tag of a result block. -/
def tableOpenL : List Char :=
  "<table border=\x271\x27 style=\x27border-collapse: collapse; width: 100%;\x27>".toList

/-- The `Findings` header row of a result table. -/
def theadL : List Char := "<tr><th>Findings</th></tr>".toList

/-- First finding row of the scenario. -/
def row1 : List Char :=
  "<tr><td>".toList ++ ("TRG1".toList ++ ", ".toList ++ "T1".toList) ++ "</td></tr>".toList

/-- Second finding row of the scenario. -/
def row2 : List Char :=
  "<tr><td>".toList ++ ("TRG2".toList ++ ", ".toList ++ "T2".toList) ++ "</td></tr>".toList

/-- Everything of the rendered document after the `<h2>` heading. -/
def suf1 : List Char :=
  "\n".toList ++ ("<p>".toList ++ "</p>".toList) ++ "\n".toList
    ++ tableOpenL ++ "\n".toList ++ theadL ++ "\n".toList
    ++ row1 ++ "\n".toList ++ row2 ++ "\n".toList
    ++ "</table>".toList ++ "\n".toList ++ "</body>".toList ++ "\n".toList ++ "</html>".toList

/-- Text between the last header chunk and the first `<tr><td>`:
generation paragraph, heading, description, table opening, header row. -/
def T2 : List Char :=
  preT ++ (h2Tok ++ ("\n".toList ++ ("<p>".toList ++ ("</p>".toList ++ ("\n".toList
    ++ (tableOpenL ++ ("\n".toList ++ (theadL ++ "\n".toList))))))))

/-- Everything of the rendered document before the first `<tr><td>`. -/
def pre2 : List Char :=
  htmlHeaderA ++ (hdrB1 ++ (hdrB2 ++ (hdrB3 ++ (hdrB4 ++ (hdrB5 ++ T2)))))

/-- Text between the two `<tr><td>` occurrences. -/
def mid2 : List Char :=
  ("TRG1".toList ++ (", ".toList ++ "T1".toList)) ++ ("</td></tr>".toList ++ "\n".toList)

/-- Everything of the rendered document after the second `<tr><td>`. -/
def suf2 : List Char :=
  ("TRG2".toList ++ (", ".toList ++ "T2".toList))
    ++ ("</td></tr>".toList ++ ("\n".toList ++ ("</table>".toList ++ ("\n".toList
    ++ ("</body>".toList ++ ("\n".toList ++ "</html>".toList))))))

/-! ## Claim theorems -/

/-- C1: for every sequence of check definitions and every cursor response,
the report produced by `run_checks` contains an entry only for checks
whose query returned at least one row: every entry's `rows` is non-empty,
and the number of report entries is at most the number of check
definitions. -/
theorem run_checks_nonempty_entries (db : List Char → Except DbErr (List DbRow))
    (checks : List CheckDef) (owners : List (List Char)) (report : List CheckResult)
    (h : run_checks db checks owners = .ok report) :
    report.length ≤ checks.length ∧ ∀ r ∈ report, r.rows ≠ [] := by
  induction checks generalizing report with
  | nil =>
    simp only [run_checks, Except.ok.injEq] at h
    subst h
    simp
  | cons c rest ih =>
    simp only [run_checks] at h
    cases hdb : db (format_query owners c.query) with
    | error e => rw [hdb] at h; simp at h
    | ok rows =>
      rw [hdb] at h
      cases hrc : run_checks db rest owners with
      | error e => rw [hrc] at h; simp at h
      | ok tl =>
        rw [hrc] at h
        simp only [Except.ok.injEq] at h
        obtain ⟨h1, h2⟩ := ih tl hrc
        by_cases he : rows.isEmpty
        · rw [if_pos he] at h
          subst h
          exact ⟨Nat.le_succ_of_le h1, h2⟩
        · rw [if_neg he] at h
          subst h
          refine ⟨by simpa using h1, ?_⟩
          intro r hr
          rcases List.mem_cons.mp hr with hr | hr
          · subst hr
            simpa [List.isEmpty_iff] using he
          · exact h2 r hr

/-- Witness for C1: a one-check run returning one row, where the report
has one entry with non-empty rows. -/
theorem run_checks_nonempty_entries_witness :
    run_checks dbOkv [checkQ] [] = .ok [resQ]
  ∧ [resQ].length ≤ [checkQ].length ∧ ∀ r ∈ [resQ], r.rows ≠ [] :=
  ⟨by decide, run_checks_nonempty_entries dbOkv [checkQ] [] [resQ] (by decide)⟩

/-- C6: for every sequence of check definitions and every cursor response,
the report entries produced by `run_checks` appear in the same relative
order as their source check definitions — the report's name sequence is an
order-preserving subsequence of the definitions' name sequence. -/
theorem run_checks_order_preserving (db : List Char → Except DbErr (List DbRow))
    (checks : List CheckDef) (owners : List (List Char)) (report : List CheckResult)
    (h : run_checks db checks owners = .ok report) :
    List.Sublist (report.map (fun r => r.name)) (checks.map (fun c => c.name)) := by
  induction checks generalizing report with
  | nil =>
    simp only [run_checks, Except.ok.injEq] at h
    subst h; simp
  | cons c rest ih =>
    simp only [run_checks] at h
    cases hdb : db (format_query owners c.query) with
    | error e => rw [hdb] at h; simp at h
    | ok rows =>
      rw [hdb] at h
      cases hrc : run_checks db rest owners with
      | error e => rw [hrc] at h; simp at h
      | ok tl =>
        rw [hrc] at h
        simp only [Except.ok.injEq] at h
        have htl := ih tl hrc
        by_cases he : rows.isEmpty
        · rw [if_pos he] at h; subst h
          exact htl.cons _
        · rw [if_neg he] at h; subst h
          simpa using htl.cons₂ c.name

/-- Witness for C6: a two-check run whose first check returns zero rows;
the report names form a subsequence of the definition names. -/
theorem run_checks_order_preserving_witness :
    run_checks dbSkip1 [checkQ1, checkQ2] [] = .ok [resQ2]
  ∧ List.Sublist ([resQ2].map (fun r => r.name))
      ([checkQ1, checkQ2].map (fun c => c.name)) :=
  ⟨by decide,
   run_checks_order_preserving dbSkip1 [checkQ1, checkQ2] [] [resQ2] (by decide)⟩

/-- C2: if every check before `c` succeeds and executing `c`'s rendered
query raises driver error `e`, then `run_checks` on the whole batch
returns exactly that error: no report is produced for the already
completed checks, and the result does not depend on the checks after `c`
(the conclusion holds for every `post`), i.e. they are never executed. -/
theorem run_checks_error_propagates (db : List Char → Except DbErr (List DbRow))
    (pre : List CheckDef) (c : CheckDef) (post : List CheckDef)
    (owners : List (List Char)) (e : DbErr)
    (hpre : ∀ c' ∈ pre, ∃ rows, db (format_query owners c'.query) = .ok rows)
    (hc : db (format_query owners c.query) = .error e) :
    run_checks db (pre ++ c :: post) owners = .error e := by
  induction pre with
  | nil => simp only [List.nil_append, run_checks, hc]
  | cons c' pre' ih =>
    obtain ⟨rows, hok⟩ := hpre c' (List.mem_cons_self _ _)
    have hrest := ih (fun x hx => hpre x (List.mem_cons_of_mem _ hx))
    simp only [List.cons_append, run_checks, hok, List.append_eq, hrest]

/-- Witness for C2: the first check succeeds, the second check's query
raises `ORA-00942`, and the whole run returns that error. -/
theorem run_checks_error_propagates_witness :
    (∀ c' ∈ [checkQ1], ∃ rows, dbBoom (format_query [] c'.query) = .ok rows)
  ∧ dbBoom (format_query [] checkQ2.query) = .error "ORA-00942".toList
  ∧ run_checks dbBoom ([checkQ1] ++ checkQ2 :: []) [] = .error "ORA-00942".toList := by
  refine ⟨?_, by decide, ?_⟩
  · intro c' hc'
    rw [List.mem_singleton] at hc'
    subst hc'
    exact ⟨[["v".toList]], by decide⟩
  · exact run_checks_error_propagates dbBoom [checkQ1] checkQ2 [] [] "ORA-00942".toList
      (by intro c' hc'
          rw [List.mem_singleton] at hc'
          subst hc'
          exact ⟨[["v".toList]], by decide⟩)
      (by decide)

/-- C3 counterexample: with a cursor that raises a driver-level error on
the second check's query, `run_checks` propagates the error (no report),
and neither `conn.close()` nor `cur.close()` is executed before
`validate_database` terminates — refuting the claim that the connection is
released on the failure path. -/
theorem validate_database_not_closed_on_failure_cex :
    run_checks dbBoom [checkQ1, checkQ2] [] = .error "ORA-00942".toList
  ∧ (validate_database dbBoom [checkQ1, checkQ2] []).connClosed = false
  ∧ (validate_database dbBoom [checkQ1, checkQ2] []).curClosed = false := by
  decide

/-- C3 amended: the cursor and connection are closed exactly on the
success path.  When `run_checks` succeeds the report is produced and both
closes run; when some check raises, the error propagates out of
`validate_database` (which has no `try`/`finally`) before the close calls,
so no report is produced and neither handle is closed. -/
theorem validate_database_close_on_success_only (db : List Char → Except DbErr (List DbRow))
    (checks : List CheckDef) (owners : List (List Char)) :
    (∀ rs, run_checks db checks owners = .ok rs →
      validate_database db checks owners = ⟨.ok rs, true, true⟩)
  ∧ (∀ e, run_checks db checks owners = .error e →
      validate_database db checks owners = ⟨.error e, false, false⟩) := by
  constructor
  · intro rs h; simp [validate_database, h]
  · intro e h; simp [validate_database, h]

/-- Witness for the amended C3: a failing run is not closed, a succeeding
run is closed. -/
theorem validate_database_close_on_success_only_witness :
    (run_checks dbBoom [checkQ2] [] = .error "ORA-00942".toList
      ∧ validate_database dbBoom [checkQ2] [] = ⟨.error "ORA-00942".toList, false, false⟩)
  ∧ (run_checks dbOkv [checkQ] [] = .ok [resQ]
      ∧ validate_database dbOkv [checkQ] [] = ⟨.ok [resQ], true, true⟩) :=
  ⟨⟨by decide,
    (validate_database_close_on_success_only dbBoom [checkQ2] []).2
      ("ORA-00942".toList) (by decide)⟩,
   ⟨by decide,
    (validate_database_close_on_success_only dbOkv [checkQ] []).1 [resQ] (by decide)⟩⟩

/-- C10: a check definition lacking the `description` key (respectively
the `warning_message` key) whose query returns at least one row still
succeeds, and its `CheckResult` carries the empty string as description
(respectively as warning) — independently of whether the other key is
present, whose value is kept — because the code reads the keys with
`check.get('description', '')` / `check.get('warning_message', '')`. -/
theorem run_checks_missing_metadata_defaults (db : List Char → Except DbErr (List DbRow))
    (owners : List (List Char)) (c : CheckDef) (rows : List DbRow)
    (hq : db (format_query owners c.query) = .ok rows) (hne : rows ≠ []) :
    (c.description = none →
      run_checks db [c] owners =
        .ok [{ name := c.name, description := [],
               warning := c.warning_message.getD [], rows := rows }])
  ∧ (c.warning_message = none →
      run_checks db [c] owners =
        .ok [{ name := c.name, description := c.description.getD [],
               warning := [], rows := rows }]) := by
  have hemp : rows.isEmpty = false := by simpa [List.isEmpty_eq_false] using hne
  constructor
  · intro hd
    simp only [run_checks, hq, hd, hemp, Option.getD_none, Bool.false_eq_true, if_false]
  · intro hw
    simp only [run_checks, hq, hw, hemp, Option.getD_none, Bool.false_eq_true, if_false]

/-- Witness for C10, covering both mixed cases: a check with only a
`warning_message` key gets the empty description while the warning is
kept; a check with only a `description` key gets the empty warning while
the description is kept. -/
theorem run_checks_missing_metadata_defaults_witness :
    (checkWarnOnly.description = none
      ∧ run_checks dbOkv [checkWarnOnly] [] =
          .ok [{ name := checkWarnOnly.name, description := [],
                 warning := checkWarnOnly.warning_message.getD [],
                 rows := [["v".toList]] }])
  ∧ (checkDescOnly.warning_message = none
      ∧ run_checks dbOkv [checkDescOnly] [] =
          .ok [{ name := checkDescOnly.name,
                 description := checkDescOnly.description.getD [],
                 warning := [], rows := [["v".toList]] }]) :=
  ⟨⟨rfl,
    (run_checks_missing_metadata_defaults dbOkv [] checkWarnOnly [["v".toList]]
      (by decide) (by decide)).1 rfl⟩,
   ⟨rfl,
    (run_checks_missing_metadata_defaults dbOkv [] checkDescOnly [["v".toList]]
      (by decide) (by decide)).2 rfl⟩⟩

/-- Unfolding equation for `containsTok` on a cons cell: the fuel is the
length of the scanned list, so the tail call is again `containsTok`. -/
theorem containsTok_cons (pat : List Char) (c : Char) (cs : List Char) :
    containsTok pat (c :: cs) = (pat.isPrefixOf (c :: cs) || containsTok pat cs) := rfl

/-- The scan result does not depend on the fuel, as long as the fuel is at
least the length of the scanned string. -/
theorem scanRep_fuel (pat rep : List Char) :
    ∀ n m s, s.length ≤ n → s.length ≤ m → scanRep pat rep n s = scanRep pat rep m s := by
  intro n
  induction n with
  | zero =>
    intro m s hn _
    have : s = [] := List.length_eq_zero.mp (Nat.le_zero.mp hn)
    subst this
    cases m <;> simp [scanRep]
  | succ n ih =>
    intro m s hn hm
    cases s with
    | nil => cases m <;> simp [scanRep]
    | cons c cs =>
      cases m with
      | zero => exact absurd hm (by simp)
      | succ m' =>
        by_cases hp : pat.isPrefixOf (c :: cs)
        · simp only [scanRep, if_pos hp]
          congr 1
          apply ih
          · simp only [List.length_drop]
            have : cs.length ≤ n := Nat.le_of_succ_le_succ hn
            omega
          · simp only [List.length_drop]
            have : cs.length ≤ m' := Nat.le_of_succ_le_succ hm
            omega
        · simp only [scanRep, if_neg hp]
          congr 1
          exact ih m' cs (Nat.le_of_succ_le_succ hn) (Nat.le_of_succ_le_succ hm)

/-- A string in which the pattern does not occur is left unchanged by the
replacement scan. -/
theorem scanRep_of_not_contains (pat rep : List Char) :
    ∀ s n, s.length ≤ n → containsTok pat s = false → scanRep pat rep n s = s := by
  intro s
  induction s with
  | nil => intro n _ _; cases n <;> simp [scanRep]
  | cons c cs ih =>
    intro n hn hc
    rw [containsTok_cons, Bool.or_eq_false_iff] at hc
    cases n with
    | zero => exact absurd hn (by simp)
    | succ n' =>
      simp only [scanRep, hc.1, Bool.false_eq_true, if_false]
      rw [ih n' (Nat.le_of_succ_le_succ hn) hc.2]

/-- One scan step at a planted occurrence of the pattern: the occurrence
is replaced and the scan resumes after it. -/
theorem scanRep_plant (pat rep : List Char) (hpat : pat ≠ []) (n : Nat) (suf : List Char) :
    scanRep pat rep (n + 1) (pat ++ suf) = rep ++ scanRep pat rep n suf := by
  cases hp : pat with
  | nil => exact absurd hp hpat
  | cons p pt =>
    rw [List.cons_append, scanRep]
    rw [if_pos (List.isPrefixOf_iff_prefix.mpr
      (by rw [← List.cons_append]; exact List.prefix_append _ _))]
    have hd : List.drop ((p :: pt).length - 1) (pt ++ suf) = suf := by
      apply List.drop_left'
      simp
    rw [hd]

/-- One scan step at a position where the pattern does not start. -/
theorem scanRep_skip (pat rep : List Char) (n : Nat) (c : Char) (cs : List Char)
    (hp : pat.isPrefixOf (c :: cs) = false) :
    scanRep pat rep (n + 1) (c :: cs) = c :: scanRep pat rep n cs := by
  rw [scanRep, if_neg (by simp [hp])]

/-- If the pattern is a prefix of `pre ++ pat ++ suf` although it does not
occur inside `pre`, then (for a border-free pattern) `pre` is empty: an
occurrence cannot straddle the start of a planted occurrence. -/
theorem eq_nil_of_isPrefixOf_append (pat pre suf : List Char)
    (hbf : borderFree pat) (hpre : containsTok pat pre = false)
    (h : pat.isPrefixOf (pre ++ pat ++ suf) = true) : pre = [] := by
  by_contra hne
  rw [ List.isPrefixOf_iff_prefix] at h
  rcases Nat.lt_or_ge pre.length pat.length with hlt | hge
  · -- the straddling case: derive a border of `pat`
    have key : pat.drop pre.length = pat.take (pat.length - pre.length) := by
      apply List.ext_getElem
      · simp only [List.length_drop, List.length_take]
        omega
      · intro i h1 h2
        have hi : i < pat.length - pre.length := by
          simpa [List.length_drop] using h1
        have hidx : pre.length + i < pat.length := by omega
        have hidx2 : pre.length + i < (pre ++ pat ++ suf).length := by
          simp only [List.length_append]
          omega
        have hip : i < pat.length := by omega
        have e1 : pat[pre.length + i] = (pre ++ pat ++ suf)[pre.length + i] :=
          h.getElem hidx
        have e2 : (pre ++ pat ++ suf)[pre.length + i] = pat[i] := by
          rw [List.getElem_append_left (by simp only [List.length_append]; omega)]
          rw [List.getElem_append_right (by omega)]
          simp only [Nat.add_sub_cancel_left]
        simp only [List.getElem_drop, List.getElem_take]
        rw [e1, e2]
    exact hbf pre.length hlt (List.length_pos.mpr hne) key
  · -- the pattern would lie entirely inside `pre`
    have hp2 : pre <+: pre ++ pat ++ suf := by
      rw [List.append_assoc]
      exact List.prefix_append _ _
    have hinpre : pat <+: pre := List.prefix_of_prefix_length_le h hp2 hge
    cases hpp : pre with
    | nil => exact hne hpp
    | cons a pre' =>
      rw [hpp] at hinpre hpre
      rw [containsTok_cons, Bool.or_eq_false_iff] at hpre
      have htrue : pat.isPrefixOf (a :: pre') = true :=
        List.isPrefixOf_iff_prefix.mpr hinpre
      rw [hpre.1] at htrue
      cases htrue

/-- Replacement at a planted occurrence: when the pattern does not occur
in `pre`, the scan copies `pre`, substitutes the occurrence, and continues
on `suf`. -/
theorem scanRep_append_token (pat rep : List Char)
    (hbf : borderFree pat) (hpat : pat ≠ []) :
    ∀ (pre suf : List Char) (n : Nat), (pre ++ pat ++ suf).length ≤ n →
      containsTok pat pre = false →
      scanRep pat rep n (pre ++ pat ++ suf)
        = pre ++ rep ++ scanRep pat rep suf.length suf := by
  intro pre
  induction pre with
  | nil =>
    intro suf n hn _
    have hp1 : 0 < pat.length := List.length_pos.mpr hpat
    cases n with
    | zero =>
      exfalso
      simp only [List.nil_append, List.length_append] at hn
      omega
    | succ n' =>
      have hsuf : suf.length ≤ n' := by
        simp only [List.nil_append, List.length_append] at hn
        omega
      rw [List.nil_append, scanRep_plant pat rep hpat n' suf,
          scanRep_fuel pat rep n' suf.length suf hsuf (Nat.le_refl _)]
      rfl
  | cons a pre' ih =>
    intro suf n hn hnc
    cases n with
    | zero =>
      exfalso
      simp only [List.cons_append, List.length_cons, List.length_append] at hn
      omega
    | succ n' =>
      have hnp : pat.isPrefixOf ((a :: pre') ++ pat ++ suf) = false := by
        cases hb : pat.isPrefixOf ((a :: pre') ++ pat ++ suf) with
        | false => rfl
        | true => cases eq_nil_of_isPrefixOf_append pat (a :: pre') suf hbf hnc hb
      have hassoc : (a :: pre') ++ pat ++ suf = a :: (pre' ++ pat ++ suf) := by simp
      rw [hassoc] at hnp
      have hlen' : (pre' ++ pat ++ suf).length ≤ n' := by
        rw [hassoc] at hn
        simpa using hn
      rw [containsTok_cons, Bool.or_eq_false_iff] at hnc
      rw [hassoc, scanRep_skip pat rep n' a (pre' ++ pat ++ suf) hnp,
          ih suf n' hlen' hnc.2]
      simp

/-- The placeholder token has no non-trivial border (its opening brace
occurs only at position 0). -/
theorem tokenP_borderFree : borderFree tokenP := by
  unfold borderFree
  decide

/-- The placeholder token is non-empty. -/
theorem tokenP_ne_nil : tokenP ≠ [] := by decide

/-- C4: query rendering replaces the reserved placeholder token with the
comma-separated single-quoted join of the exclusion list.  Part 1: at any
occurrence of the token (with none inside the preceding text) the token is
replaced by the join and the scan continues after it.  Part 2: for
`["SYS", "SYSTEM"]` the substituted text is exactly `\x27SYS\x27, \x27SYSTEM\x27`.
Part 3: an empty exclusion list substitutes the empty string.  Part 4: a
template not containing the token is returned unchanged. -/
theorem format_query_substitutes :
    (∀ pre suf owners, containsTok tokenP pre = false →
        format_query owners (pre ++ tokenP ++ suf)
          = pre ++ joinOwners owners ++ format_query owners suf)
  ∧ joinOwners ["SYS".toList, "SYSTEM".toList] = "\x27SYS\x27, \x27SYSTEM\x27".toList
  ∧ joinOwners [] = []
  ∧ (∀ q owners, containsTok tokenP q = false → format_query owners q = q) := by
  refine ⟨?_, by decide, by decide, ?_⟩
  · intro pre suf owners hpre
    exact scanRep_append_token tokenP (joinOwners owners) tokenP_borderFree tokenP_ne_nil
      pre suf _ (Nat.le_refl _) hpre
  · intro q owners hq
    exact scanRep_of_not_contains tokenP (joinOwners owners) q q.length (Nat.le_refl _) hq

/-- Witness for C4: rendering a concrete query with exclusion list
`["SYS", "SYSTEM"]` substitutes `\x27SYS\x27, \x27SYSTEM\x27` for the token, and a
token-free query is unchanged. -/
theorem format_query_substitutes_witness :
    containsTok tokenP "SELECT owner FROM t WHERE owner NOT IN (".toList = false
  ∧ format_query ["SYS".toList, "SYSTEM".toList]
        ("SELECT owner FROM t WHERE owner NOT IN (".toList ++ tokenP ++ ")".toList)
      = "SELECT owner FROM t WHERE owner NOT IN (".toList
          ++ joinOwners ["SYS".toList, "SYSTEM".toList]
          ++ format_query ["SYS".toList, "SYSTEM".toList] ")".toList
  ∧ containsTok tokenP "SELECT 1 FROM dual".toList = false
  ∧ format_query [] "SELECT 1 FROM dual".toList = "SELECT 1 FROM dual".toList :=
  ⟨by decide,
   format_query_substitutes.1 "SELECT owner FROM t WHERE owner NOT IN (".toList
     ")".toList ["SYS".toList, "SYSTEM".toList] (by decide),
   by decide,
   format_query_substitutes.2.2.2 "SELECT 1 FROM dual".toList [] (by decide)⟩

/-- C5 counterexample: substitution is not idempotent for every template
and exclusion list.  With the empty exclusion list and the template
`\x7bowner\x7bowner_exclude_list\x7d_exclude_list\x7d`, the first replacement deletes
the inner token and thereby forms a new token, which a second application
deletes, so applying the substitution twice differs from applying it
once. -/
theorem format_query_not_idempotent_cex :
    format_query []
        (format_query [] "\x7bowner\x7bowner_exclude_list\x7d_exclude_list\x7d".toList)
      ≠ format_query [] "\x7bowner\x7bowner_exclude_list\x7d_exclude_list\x7d".toList := by
  decide

/-- C5 amended: substitution is idempotent whenever the once-rendered
query no longer contains the placeholder token (which holds in particular
when neither the owners nor the remaining template text reintroduce it):
a second application then returns the rendered query unchanged. -/
theorem format_query_idempotent_of_no_token (owners : List (List Char)) (q : List Char)
    (h : containsTok tokenP (format_query owners q) = false) :
    format_query owners (format_query owners q) = format_query owners q :=
  scanRep_of_not_contains tokenP (joinOwners owners) (format_query owners q) _
    (Nat.le_refl _) h

/-- Witness for the amended C5: a rendered query containing no residual
token is a fixed point of the substitution. -/
theorem format_query_idempotent_of_no_token_witness :
    containsTok tokenP
        (format_query ["SYS".toList] "SELECT o FROM t WHERE o NOT IN (\x7bowner_exclude_list\x7d)".toList)
      = false
  ∧ format_query ["SYS".toList]
        (format_query ["SYS".toList] "SELECT o FROM t WHERE o NOT IN (\x7bowner_exclude_list\x7d)".toList)
      = format_query ["SYS".toList] "SELECT o FROM t WHERE o NOT IN (\x7bowner_exclude_list\x7d)".toList :=
  ⟨by decide,
   format_query_idempotent_of_no_token ["SYS".toList]
     "SELECT o FROM t WHERE o NOT IN (\x7bowner_exclude_list\x7d)".toList (by decide)⟩

/-- C7: the host token is `ip_` plus the host with dots replaced by
underscores exactly when the host consists only of digits and dots (the
code's test for a dotted numeric address), and otherwise is the host
restricted to its alphabetic characters, case preserved; the report
filename is exactly `dms_comp_<token>_<timestamp>.html`.  The concrete
parts check `10.0.0.5 → ip_10_0_0_5` and `prod-db-01 → proddb` and a full
filename. -/
theorem host_token_report_name_spec :
    (∀ h, h.all (fun c => c.isDigit || c == '.') = true →
        host_token h = "ip_".toList ++ h.map (fun c => if c == '.' then '_' else c))
  ∧ (∀ h, h.all (fun c => c.isDigit || c == '.') = false →
        host_token h = h.filter (fun c => c.isAlpha))
  ∧ host_token "10.0.0.5".toList = "ip_10_0_0_5".toList
  ∧ host_token "prod-db-01".toList = "proddb".toList
  ∧ (∀ tok ts, report_name tok ts
        = "dms_comp_".toList ++ tok ++ "_".toList ++ ts ++ ".html".toList)
  ∧ report_name (host_token "10.0.0.5".toList) "20260101_093000".toList
      = "dms_comp_ip_10_0_0_5_20260101_093000.html".toList := by
  refine ⟨?_, ?_, by decide, by decide, fun tok ts => rfl, by decide⟩
  · intro h hcond
    simp [host_token, hcond]
  · intro h hcond
    simp [host_token, hcond]

/-- Witness for C7: both branch hypotheses discharged on the spec's own
examples. -/
theorem host_token_report_name_spec_witness :
    ("10.0.0.5".toList.all (fun c => c.isDigit || c == '.') = true
      ∧ host_token "10.0.0.5".toList
          = "ip_".toList ++ "10.0.0.5".toList.map (fun c => if c == '.' then '_' else c))
  ∧ ("prod-db-01".toList.all (fun c => c.isDigit || c == '.') = false
      ∧ host_token "prod-db-01".toList
          = "prod-db-01".toList.filter (fun c => c.isAlpha)) :=
  ⟨⟨by decide, host_token_report_name_spec.1 _ (by decide)⟩,
   ⟨by decide, host_token_report_name_spec.2.1 _ (by decide)⟩⟩

/-- The split scan never produces an empty segment list. -/
theorem pySplit_ne_nil (pat : List Char) : ∀ n s, pySplit pat n s ≠ [] := by
  intro n
  induction n with
  | zero => intro s; simp [pySplit]
  | succ n ih =>
    intro s
    cases s with
    | nil => simp [pySplit]
    | cons c cs =>
      by_cases hp : pat.isPrefixOf (c :: cs)
      · simp [pySplit, hp]
      · simp only [pySplit, if_neg hp]
        cases hsp : pySplit pat n cs with
        | nil => simp
        | cons seg rest => simp

/-- The first segment of the split is the text before the first
occurrence of the pattern. -/
theorem pySplit_head (pat : List Char) : ∀ n s, s.length ≤ n →
    (pySplit pat n s).getD 0 [] = scanTake pat s.length s := by
  intro n
  induction n with
  | zero =>
    intro s hn
    have : s = [] := List.length_eq_zero.mp (Nat.le_zero.mp hn)
    subst this
    simp [pySplit, scanTake]
  | succ n ih =>
    intro s hn
    cases s with
    | nil => simp [pySplit, scanTake]
    | cons c cs =>
      by_cases hp : pat.isPrefixOf (c :: cs)
      · simp [pySplit, scanTake, hp]
      · simp only [pySplit, if_neg hp, List.length_cons, scanTake]
        cases hsp : pySplit pat n cs with
        | nil => exact absurd hsp (pySplit_ne_nil pat n cs)
        | cons seg rest =>
          have := ih cs (Nat.le_of_succ_le_succ hn)
          rw [hsp] at this
          simpa using congrArg (c :: ·) this

/-- The second segment of the split of a string that starts with the
pattern is the text after that occurrence up to (excluding) the next
occurrence of the pattern. -/
theorem pySplit_second (pat : List Char) (hpat : pat ≠ []) (s : List Char) (n : Nat)
    (hn : s.length ≤ n) (hp : pat.isPrefixOf s = true) :
    (pySplit pat n s).getD 1 [] =
      scanTake pat (List.drop pat.length s).length (List.drop pat.length s) := by
  cases s with
  | nil =>
    rw [ List.isPrefixOf_iff_prefix] at hp
    have h0 : pat.length ≤ 0 := by simpa using hp.length_le
    exact absurd (List.length_eq_zero.mp (Nat.le_zero.mp h0)) hpat
  | cons c cs =>
    cases n with
    | zero => simp at hn
    | succ n' =>
      obtain ⟨p, pt, rfl⟩ : ∃ p pt, pat = p :: pt := by
        cases pat with
        | nil => exact absurd rfl hpat
        | cons p pt => exact ⟨p, pt, rfl⟩
      simp only [pySplit, hp, if_true]
      have hd1 : (p :: pt).length - 1 = pt.length := by simp
      have hd2 : List.drop (p :: pt).length (c :: cs) = List.drop pt.length cs := by
        simp [List.drop_succ_cons]
      rw [hd1, hd2]
      have hlen : (List.drop pt.length cs).length ≤ n' := by
        simp only [List.length_drop]
        have : cs.length ≤ n' := Nat.le_of_succ_le_succ hn
        omega
      simpa using pySplit_head (p :: pt) n' (List.drop pt.length cs) hlen

/-- C8 amended: `resolve_password` keeps `None` and any password not
starting with `gcp-secret:` unchanged; a password starting with
`gcp-secret:` resolves through the store keyed by the text after the
marker **up to (excluding) the next occurrence of the marker** (Python
`split("gcp-secret:")[1]`), not necessarily the whole remainder. -/
theorem resolve_password_spec (store : List Char → List Char) :
    (resolve_password store none = none)
  ∧ (∀ s, sepP.isPrefixOf s = false → resolve_password store (some s) = some s)
  ∧ (∀ s, sepP.isPrefixOf s = true →
      resolve_password store (some s)
        = some (store (scanTake sepP (List.drop sepP.length s).length
            (List.drop sepP.length s)))) := by
  refine ⟨rfl, ?_, ?_⟩
  · intro s hp
    simp only [resolve_password]
    rw [if_neg (by simp [hp])]
  · intro s hp
    have hne : s ≠ [] := by
      intro h
      subst h
      rw [show sepP.isPrefixOf ([] : List Char) = false from by decide] at hp
      cases hp
    simp only [resolve_password]
    rw [if_pos ⟨hne, hp⟩]
    rw [pySplit_second sepP (by decide) s s.length (Nat.le_refl _) hp]

/-- Witness for the amended C8: a secret-scheme password resolves through
the store; a plain password is unchanged. -/
theorem resolve_password_spec_witness :
    sepP.isPrefixOf "gcp-secret:mypw".toList = true
  ∧ resolve_password (fun k => "#".toList ++ k) (some "gcp-secret:mypw".toList)
      = some ("#".toList ++ scanTake sepP
          (List.drop sepP.length "gcp-secret:mypw".toList).length
          (List.drop sepP.length "gcp-secret:mypw".toList))
  ∧ sepP.isPrefixOf "plainpw".toList = false
  ∧ resolve_password (fun k => "#".toList ++ k) (some "plainpw".toList)
      = some "plainpw".toList :=
  ⟨by decide,
   (resolve_password_spec (fun k => "#".toList ++ k)).2.2 "gcp-secret:mypw".toList (by decide),
   by decide,
   (resolve_password_spec (fun k => "#".toList ++ k)).2.1 "plainpw".toList (by decide)⟩

/-- C8 counterexample: for the password `gcp-secret:agcp-secret:b`, the
text after the reserved prefix is `agcp-secret:b`, but the code keys the
store by Python `split("gcp-secret:")[1]`, i.e. `a`: with the identity
store the result is `some "a"`, not the store value at the full
remainder. -/
theorem resolve_password_truncates_cex :
    resolve_password (fun k => k) (some "gcp-secret:agcp-secret:b".toList)
      = some "a".toList
  ∧ List.drop sepP.length "gcp-secret:agcp-secret:b".toList = "agcp-secret:b".toList
  ∧ resolve_password (fun k => k) (some "gcp-secret:agcp-secret:b".toList)
      ≠ some (List.drop sepP.length "gcp-secret:agcp-secret:b".toList) := by
  decide

/-- The count scan does not depend on the fuel, as long as the fuel is at
least the length of the scanned string. -/
theorem countTok_fuel (pat : List Char) :
    ∀ n m s, s.length ≤ n → s.length ≤ m → countTok pat n s = countTok pat m s := by
  intro n
  induction n with
  | zero =>
    intro m s hn _
    have : s = [] := List.length_eq_zero.mp (Nat.le_zero.mp hn)
    subst this
    cases m <;> simp [countTok]
  | succ n ih =>
    intro m s hn hm
    cases s with
    | nil => cases m <;> simp [countTok]
    | cons c cs =>
      cases m with
      | zero => exact absurd hm (by simp)
      | succ m' =>
        by_cases hp : pat.isPrefixOf (c :: cs)
        · simp only [countTok, if_pos hp]
          congr 1
          apply ih
          · simp only [List.length_drop]
            have : cs.length ≤ n := Nat.le_of_succ_le_succ hn
            omega
          · simp only [List.length_drop]
            have : cs.length ≤ m' := Nat.le_of_succ_le_succ hm
            omega
        · simp only [countTok, if_neg hp]
          exact ih m' cs (Nat.le_of_succ_le_succ hn) (Nat.le_of_succ_le_succ hm)

/-- A string in which the pattern does not occur has occurrence count 0. -/
theorem countTok_of_not_contains (pat : List Char) :
    ∀ s n, s.length ≤ n → containsTok pat s = false → countTok pat n s = 0 := by
  intro s
  induction s with
  | nil => intro n _ _; cases n <;> simp [countTok]
  | cons c cs ih =>
    intro n hn hc
    rw [containsTok_cons, Bool.or_eq_false_iff] at hc
    cases n with
    | zero => exact absurd hn (by simp)
    | succ n' =>
      simp only [countTok, hc.1, Bool.false_eq_true, if_false]
      exact ih n' (Nat.le_of_succ_le_succ hn) hc.2

/-- One count step at a planted occurrence. -/
theorem countTok_plant (pat : List Char) (hpat : pat ≠ []) (n : Nat) (suf : List Char) :
    countTok pat (n + 1) (pat ++ suf) = 1 + countTok pat n suf := by
  cases hp : pat with
  | nil => exact absurd hp hpat
  | cons p pt =>
    rw [List.cons_append, countTok]
    rw [if_pos (List.isPrefixOf_iff_prefix.mpr
      (by rw [← List.cons_append]; exact List.prefix_append _ _))]
    have hd : List.drop ((p :: pt).length - 1) (pt ++ suf) = suf := by
      apply List.drop_left'
      simp
    rw [hd]

/-- One count step at a position where the pattern does not start. -/
theorem countTok_skip (pat : List Char) (n : Nat) (c : Char) (cs : List Char)
    (hp : pat.isPrefixOf (c :: cs) = false) :
    countTok pat (n + 1) (c :: cs) = countTok pat n cs := by
  rw [countTok, if_neg (by simp [hp])]

/-- Counting across a planted occurrence: when the pattern does not occur
in `pre`, the count is one plus the count in `suf`. -/
theorem countTok_split (pat : List Char)
    (hbf : borderFree pat) (hpat : pat ≠ []) :
    ∀ (pre suf : List Char) (n : Nat), (pre ++ pat ++ suf).length ≤ n →
      containsTok pat pre = false →
      countTok pat n (pre ++ pat ++ suf) = 1 + countTok pat suf.length suf := by
  intro pre
  induction pre with
  | nil =>
    intro suf n hn _
    have hp1 : 0 < pat.length := List.length_pos.mpr hpat
    cases n with
    | zero =>
      exfalso
      simp only [List.nil_append, List.length_append] at hn
      omega
    | succ n' =>
      have hsuf : suf.length ≤ n' := by
        simp only [List.nil_append, List.length_append] at hn
        omega
      rw [List.nil_append, countTok_plant pat hpat n' suf,
          countTok_fuel pat n' suf.length suf hsuf (Nat.le_refl _)]
  | cons a pre' ih =>
    intro suf n hn hnc
    cases n with
    | zero =>
      exfalso
      simp only [List.cons_append, List.length_cons, List.length_append] at hn
      omega
    | succ n' =>
      have hnp : pat.isPrefixOf ((a :: pre') ++ pat ++ suf) = false := by
        cases hb : pat.isPrefixOf ((a :: pre') ++ pat ++ suf) with
        | false => rfl
        | true => cases eq_nil_of_isPrefixOf_append pat (a :: pre') suf hbf hnc hb
      have hassoc : (a :: pre') ++ pat ++ suf = a :: (pre' ++ pat ++ suf) := by simp
      rw [hassoc] at hnp
      have hlen' : (pre' ++ pat ++ suf).length ≤ n' := by
        rw [hassoc] at hn
        simpa using hn
      rw [containsTok_cons, Bool.or_eq_false_iff] at hnc
      rw [hassoc, countTok_skip pat n' a (pre' ++ pat ++ suf) hnp,
          ih suf n' hlen' hnc.2]

/-- No-occurrence is preserved by append, provided the pattern does not
start inside the last `pat.length - 1` positions of the left part (the
window condition `hsp`, phrased over every short suffix of `a`). -/
theorem containsTok_append_false (pat : List Char) :
    ∀ (a b : List Char), containsTok pat a = false → containsTok pat b = false →
      (∀ j, j < pat.length → pat.isPrefixOf (List.drop (a.length - j) a ++ b) = false) →
      containsTok pat (a ++ b) = false := by
  intro a
  induction a with
  | nil =>
    intro b _ hb _
    simpa using hb
  | cons c cs ih =>
    intro b ha hb hsp
    rw [containsTok_cons, Bool.or_eq_false_iff] at ha
    rw [List.cons_append, containsTok_cons, Bool.or_eq_false_iff]
    refine ⟨?_, ?_⟩
    · rcases le_or_lt pat.length (c :: cs).length with hle | hgt
      · cases hb2 : pat.isPrefixOf (c :: (cs ++ b)) with
        | false => rfl
        | true =>
          exfalso
          rw [ List.isPrefixOf_iff_prefix] at hb2
          rw [← List.cons_append] at hb2
          have hpa : pat <+: (c :: cs) :=
            List.prefix_of_prefix_length_le hb2 (List.prefix_append _ _) hle
          have htrue : pat.isPrefixOf (c :: cs) = true :=
            List.isPrefixOf_iff_prefix.mpr hpa
          rw [ha.1] at htrue
          cases htrue
      · have hs := hsp (c :: cs).length hgt
        rw [Nat.sub_self, List.drop_zero, List.cons_append] at hs
        exact hs
    · apply ih b ha.2 hb
      intro j hj
      rcases le_or_lt j cs.length with hle | hgt
      · have hs := hsp j hj
        have harith : (c :: cs).length - j = (cs.length - j) + 1 := by
          simp only [List.length_cons]
          omega
        rw [harith, List.drop_succ_cons] at hs
        exact hs
      · have hs := hsp cs.length (by omega)
        have harith : (c :: cs).length - cs.length = 1 := by simp
        rw [harith] at hs
        have hd1 : List.drop 1 (c :: cs) = cs := rfl
        rw [hd1] at hs
        have h0 : cs.length - j = 0 := by omega
        rw [h0, List.drop_zero]
        exact hs

/-- Unfolding of `List.intercalate` on a list with at least two parts. -/
theorem intercalate_cons2 (sep x y : List Char) (rest : List (List Char)) :
    List.intercalate sep (x :: y :: rest) = x ++ sep ++ List.intercalate sep (y :: rest) := by
  simp [List.intercalate, List.intersperse]

/-- Unfolding of `List.intercalate` on a one-part list. -/
theorem intercalate_one (sep x : List Char) :
    List.intercalate sep [x] = x := by
  simp [List.intercalate]

theorem html9_shape1 : html9 = pre1 ++ h2Tok ++ suf1 := by
  simp only [html9, generate_html_report, resultBlock, res9, pre1, suf1, preT, h2Tok,
    tableOpenL, theadL, row1, row2,
    htmlHeaderB, List.map_nil, List.map_cons, List.flatten_nil, List.append_nil,
    List.nil_append, List.flatMap_cons, List.flatMap_nil, List.isEmpty_nil, if_true,
    intercalate_cons2, intercalate_one, List.cons_append, List.append_assoc]

theorem html9_shape2 :
    html9 = pre2 ++ "<tr><td>".toList ++ (mid2 ++ "<tr><td>".toList ++ suf2) := by
  simp only [html9, generate_html_report, resultBlock, res9, pre2, mid2, suf2, preT, h2Tok,
    tableOpenL, theadL, T2,
    htmlHeaderB, List.map_nil, List.map_cons, List.flatten_nil, List.append_nil,
    List.nil_append, List.flatMap_cons, List.flatMap_nil, List.isEmpty_nil, if_true,
    intercalate_cons2, intercalate_one, List.cons_append, List.append_assoc]

/-- The heading pattern is non-empty. -/
theorem h2Tok_ne_nil : h2Tok ≠ [] := by decide

/-- The heading pattern has no non-trivial border. -/
theorem h2Tok_borderFree : borderFree h2Tok := by
  unfold borderFree
  decide

/-- The data-row pattern is non-empty. -/
theorem tdTok_ne_nil : "<tr><td>".toList ≠ ([] : List Char) := by decide

/-- The data-row pattern has no non-trivial border. -/
theorem tdTok_borderFree : borderFree "<tr><td>".toList := by
  unfold borderFree
  decide

theorem noH2_preT : containsTok h2Tok preT = false := by decide

theorem noH2_5 : containsTok h2Tok (hdrB5 ++ preT) = false :=
  containsTok_append_false h2Tok hdrB5 preT (by decide) noH2_preT (by decide)

theorem noH2_4 : containsTok h2Tok (hdrB4 ++ (hdrB5 ++ preT)) = false :=
  containsTok_append_false h2Tok hdrB4 _ (by decide) noH2_5 (by decide)

theorem noH2_3 : containsTok h2Tok (hdrB3 ++ (hdrB4 ++ (hdrB5 ++ preT))) = false :=
  containsTok_append_false h2Tok hdrB3 _ (by decide) noH2_4 (by decide)

theorem noH2_2 : containsTok h2Tok (hdrB2 ++ (hdrB3 ++ (hdrB4 ++ (hdrB5 ++ preT)))) = false :=
  containsTok_append_false h2Tok hdrB2 _ (by decide) noH2_3 (by decide)

theorem noH2_1 :
    containsTok h2Tok (hdrB1 ++ (hdrB2 ++ (hdrB3 ++ (hdrB4 ++ (hdrB5 ++ preT))))) = false :=
  containsTok_append_false h2Tok hdrB1 _ (by decide) noH2_2 (by decide)

/-- The heading pattern does not occur before its planted occurrence. -/
theorem noH2_pre1 : containsTok h2Tok pre1 = false :=
  containsTok_append_false h2Tok htmlHeaderA _ (by decide) noH2_1 (by decide)

/-- The heading pattern does not occur after its planted occurrence. -/
theorem noH2_suf1 : containsTok h2Tok suf1 = false := by decide

theorem noTd_T2 : containsTok "<tr><td>".toList T2 = false := by decide

theorem noTd_5 : containsTok "<tr><td>".toList (hdrB5 ++ T2) = false :=
  containsTok_append_false _ hdrB5 T2 (by decide) noTd_T2 (by decide)

theorem noTd_4 : containsTok "<tr><td>".toList (hdrB4 ++ (hdrB5 ++ T2)) = false :=
  containsTok_append_false _ hdrB4 _ (by decide) noTd_5 (by decide)

theorem noTd_3 : containsTok "<tr><td>".toList (hdrB3 ++ (hdrB4 ++ (hdrB5 ++ T2))) = false :=
  containsTok_append_false _ hdrB3 _ (by decide) noTd_4 (by decide)

theorem noTd_2 :
    containsTok "<tr><td>".toList (hdrB2 ++ (hdrB3 ++ (hdrB4 ++ (hdrB5 ++ T2)))) = false :=
  containsTok_append_false _ hdrB2 _ (by decide) noTd_3 (by decide)

theorem noTd_1 :
    containsTok "<tr><td>".toList
      (hdrB1 ++ (hdrB2 ++ (hdrB3 ++ (hdrB4 ++ (hdrB5 ++ T2))))) = false :=
  containsTok_append_false _ hdrB1 _ (by decide) noTd_2 (by decide)

/-- The data-row pattern does not occur before the first finding row. -/
theorem noTd_pre2 : containsTok "<tr><td>".toList pre2 = false :=
  containsTok_append_false _ htmlHeaderA _ (by decide) noTd_1 (by decide)

/-- The data-row pattern does not occur between the two finding rows. -/
theorem noTd_mid2 : containsTok "<tr><td>".toList mid2 = false := by decide

/-- The data-row pattern does not occur after the second finding row. -/
theorem noTd_suf2 : containsTok "<tr><td>".toList suf2 = false := by decide

/-- The rendered document contains exactly one occurrence of the
`<h2>orphaned_triggers</h2>` heading. -/
theorem html9_h2_count : countOccur "<h2>orphaned_triggers</h2>".toList html9 = 1 := by
  rw [show ("<h2>orphaned_triggers</h2>".toList : List Char) = h2Tok from by decide]
  simp only [countOccur]
  rw [html9_shape1]
  rw [countTok_split h2Tok h2Tok_borderFree h2Tok_ne_nil pre1 suf1 _ (Nat.le_refl _) noH2_pre1]
  rw [countTok_of_not_contains h2Tok suf1 suf1.length (Nat.le_refl _) noH2_suf1]

/-- The rendered document contains exactly two `<tr><td>` data rows. -/
theorem html9_td_count : countOccur "<tr><td>".toList html9 = 2 := by
  simp only [countOccur]
  rw [html9_shape2]
  rw [countTok_split _ tdTok_borderFree tdTok_ne_nil pre2
    (mid2 ++ "<tr><td>".toList ++ suf2) _ (Nat.le_refl _) noTd_pre2]
  rw [countTok_split _ tdTok_borderFree tdTok_ne_nil mid2 suf2 _ (Nat.le_refl _) noTd_mid2]
  rw [countTok_of_not_contains _ suf2 suf2.length (Nat.le_refl _) noTd_suf2]

/-- C9: end-to-end scenario: with one check `orphaned_triggers` whose
query returns 2 rows and one check `dangling_links` whose query returns 0
rows, the report has exactly one entry, named `orphaned_triggers`, whose
rows have length 2; and the HTML rendering (with a fixed clock and no CSS
files) contains exactly one `<h2>orphaned_triggers</h2>` heading and
exactly 2 data rows (`<tr><td>` occurrences — the table's header row uses
`<th>`). -/
theorem end_to_end_orphaned_triggers :
    run_checks db9 [checkOT, checkDL] [] = .ok [res9]
  ∧ res9.name = "orphaned_triggers".toList
  ∧ res9.rows.length = 2
  ∧ countOccur "<h2>orphaned_triggers</h2>".toList html9 = 1
  ∧ countOccur "<tr><td>".toList html9 = 2 :=
  ⟨by decide, by decide, by decide, html9_h2_count, html9_td_count⟩
